import Mathlib

/-!
Verification of the template substitution engine of go-kafka-pusher
(`internal/template`, embedded in `payload_integration_test.go` lines 306-556).

The engine is embedded shallowly:
- Go strings are `String` / `List Char`;
- the `crypto/rand` source is an explicit oracle (`Rng`): a stream of byte
  values for `rand.Read` / `uuid.New`, and a stream of draws for `rand.Int`
  (whose result is uniform in `[0, max)`; the oracle value is reduced
  `% max` to model an arbitrary such result);
- the current wall-clock time is an abstract environment (`TimeEnv`) mapping
  a Go layout string to its rendering at the current instant;
- Go maps of the loaded template are association lists;
- the regexp searches of `processValue` are hand-compiled character
  automata equivalent to the four concrete patterns (the character classes
  involved are pairwise disjoint and disjoint from `|`, `}` so the greedy
  left-to-right scan has no backtracking).
-/

/-- RE2 `\s` character class: `[\t\n\f\r ]`. -/
def isWS (c : Char) : Bool :=
  c = ' ' || c = '\t' || c = '\n' || c = '\r' || c = '\x0c'

/-- Lowercase hexadecimal digit, as produced by Go `%x` formatting. -/
def isHexLower (c : Char) : Bool :=
  c.isDigit || ('a' ≤ c && c ≤ 'f')

/-- Character allowed in a `text/template` field name (`{{.name}}`). -/
def isIdentChar (c : Char) : Bool :=
  c.isAlphanum || c = '_'

/-- Decimal digit character `0`..`9` for value `n` (`n < 10`). -/
def digitChar (n : Nat) : Char :=
  ("0123456789" : String).data.getD n '0'

/-- Lowercase hexadecimal digit character for value `n` (`n < 16`). -/
def hexDigit (n : Nat) : Char :=
  ("0123456789abcdef" : String).data.getD n '0'

/-- Numeric value of a string of decimal digits (`strconv` digit loop). -/
def decValue (cs : List Char) : Nat :=
  cs.foldl (fun a c => 10 * a + (c.toNat - 48)) 0

/-- Decimal representation of a natural number, fuelled (the fuel is an
upper bound on the number of digits; `natDec` supplies a sufficient one). -/
def natDecF : Nat → Nat → List Char
  | 0, _ => []
  | fuel + 1, n =>
    if n < 10 then [digitChar n]
    else natDecF fuel (n / 10) ++ [digitChar (n % 10)]

/-- Decimal representation of a natural number (Go `%d` on a `big.Int`). -/
def natDec (n : Nat) : List Char :=
  natDecF (n + 1) n

/-- Go `strconv.Atoi` on a nonempty all-digit string: the numeric value,
clamped to `MaxInt64` on range error (`ParseInt` returns the clamped value
together with `ErrRange`, and the caller drops the error). -/
def atoiClamped (cs : List Char) : Int :=
  let v := decValue cs
  if v ≤ 9223372036854775807 then (v : Int) else 9223372036854775807

/-- Two lowercase hex digits of a byte, Go `%x` on one byte.  Only the low
eight bits of the oracle value are observed, as with a Go `byte`. -/
def hexByteL (b : Nat) : List Char :=
  [hexDigit (b / 16 % 16), hexDigit (b % 16)]

/-- Lowercase hex of a byte slice, Go `%x` on `[]byte`. -/
def hexBytesL (bs : List Nat) : List Char :=
  (bs.map hexByteL).flatten

/-- `fmt.Sprintf("%08x-%04x-%04x-%04x-%012x", b[0:4], b[4:6], b[6:8],
b[8:10], b[10:16])`: the widths are exact for the given slice lengths, so
no padding ever occurs. -/
def hexGroupsL (bs : List Nat) : List Char :=
  hexBytesL (bs.take 4) ++ '-' :: hexBytesL ((bs.drop 4).take 2)
    ++ '-' :: hexBytesL ((bs.drop 6).take 2)
    ++ '-' :: hexBytesL ((bs.drop 8).take 2)
    ++ '-' :: hexBytesL (bs.drop 10)

/-- `generateGUID`: 16 random bytes formatted as five dash-separated hex
groups, with no version or variant bits forced. -/
def generateGUID (bs : List Nat) : String :=
  String.mk (hexGroupsL bs)

/-- Modelled from the spec: the version-4 UUID construction of the
`github.com/google/uuid` dependency (not part of this repository), which
the code calls as `uuid.New().String()`.  Per RFC 4122 it draws 16 random
bytes, sets `b[6] = (b[6] & 0x0f) | 0x40` (version nibble 4) and
`b[8] = (b[8] & 0x3f) | 0x80` (variant bits `10`). -/
def uuidFromBytes (bs : List Nat) : List Nat :=
  match bs with
  | [b0, b1, b2, b3, b4, b5, b6, b7, b8, b9, b10, b11, b12, b13, b14, b15] =>
    [b0, b1, b2, b3, b4, b5, b6 % 16 + 64, b7, b8 % 64 + 128, b9, b10, b11,
     b12, b13, b14, b15]
  | other => other

/-- `uuid.New().String()`: patched bytes rendered as hex groups. -/
def uuidNewString (bs : List Nat) : String :=
  String.mk (hexGroupsL (uuidFromBytes bs))

/-- Consume a run of RE2 whitespace (`\s*`, greedy). -/
def dropWS : List Char → List Char
  | [] => []
  | c :: cs => if isWS c then dropWS cs else c :: cs

/-- Match a literal character sequence at the head, returning the rest. -/
def matchLit : List Char → List Char → Option (List Char)
  | [], cs => some cs
  | _ :: _, [] => none
  | p :: ps, c :: cs => if c = p then matchLit ps cs else none

/-- Greedy run of a character class (`cls*`), returning run and rest. -/
def spanClass (cls : Char → Bool) : List Char → List Char × List Char
  | [] => ([], [])
  | c :: cs =>
    if cls c then
      let (a, b) := spanClass cls cs
      (c :: a, b)
    else ([], c :: cs)

/-- Whether the regex `\x7b\x7b\s*TAG\s*\x7d\x7d` matches at the head of
the input (the `guid` / `uuid` patterns). -/
def matchSimpleAt (tag : List Char) (cs : List Char) : Bool :=
  match matchLit ['{', '{'] cs with
  | none => false
  | some cs1 =>
    match matchLit tag (dropWS cs1) with
    | none => false
    | some cs2 =>
      match matchLit ['}', '}'] (dropWS cs2) with
      | some _ => true
      | none => false

/-- `regexp.MatchString` for a simple tag pattern: match at any position. -/
def containsPat (tag : List Char) : List Char → Bool
  | [] => false
  | c :: cs => matchSimpleAt tag (c :: cs) || containsPat tag cs

/-- Match `\x7b\x7b\s*TAG\|?(cls*)\s*\x7d\x7d` at the head of the input,
returning the captured group (the `now` / `rnd` patterns). -/
def matchArgAt (tag : List Char) (cls : Char → Bool) (cs : List Char) :
    Option (List Char) :=
  match matchLit ['{', '{'] cs with
  | none => none
  | some cs1 =>
    match matchLit tag (dropWS cs1) with
    | none => none
    | some cs2 =>
      let cs3 := match cs2 with
        | '|' :: r => r
        | other => other
      let (arg, cs4) := spanClass cls cs3
      match matchLit ['}', '}'] (dropWS cs4) with
      | some _ => some arg
      | none => none

/-- `FindStringSubmatch` capture of the leftmost match of an argument
pattern, `none` when the pattern does not match anywhere. -/
def findArg (tag : List Char) (cls : Char → Bool) : List Char → Option (List Char)
  | [] => none
  | c :: cs =>
    match matchArgAt tag cls (c :: cs) with
    | some a => some a
    | none => findArg tag cls cs

/-- Tag of the `guid` pattern. -/
def guidTag : List Char := ['@', 'g', 'u', 'i', 'd']

/-- Tag of the `uuid` pattern. -/
def uuidTag : List Char := ['@', 'u', 'u', 'i', 'd']

/-- Tag of the `now` pattern. -/
def nowTag : List Char := ['@', 'n', 'o', 'w']

/-- Tag of the `rnd` pattern. -/
def rndTag : List Char := ['@', 'r', 'n', 'd']

/-- `strings.ToUpper`, character-wise (the strings it is applied to are
ASCII: extensions and regex-captured alphanumeric format names). -/
def strToUpper (s : String) : String :=
  String.mk (s.data.map Char.toUpper)

/-- `strings.ToLower`, character-wise (same ASCII scope as `strToUpper`). -/
def strToLower (s : String) : String :=
  String.mk (s.data.map Char.toLower)

/-- The current wall-clock instant, abstracted: `format l` is what
`t.Format(l)` returns for layout `l` at that instant, and the three `unix`
fields are the corresponding epoch numbers. -/
structure TimeEnv where
  format : String → String
  unix : Int
  unixMilli : Int
  unixNano : Int

/-- `formatTime` of the source: uppercase the requested format, dispatch on
the thirteen recognized names (each mapped to the corresponding Go `time`
layout constant), and otherwise apply the uppercased string itself as a
custom layout. -/
def formatTime (env : TimeEnv) (format : String) : String :=
  let f := strToUpper format
  if f = "RFC822" then env.format "02 Jan 06 15:04 MST"
  else if f = "RFC822Z" then env.format "02 Jan 06 15:04 -0700"
  else if f = "RFC850" then env.format "Monday, 02-Jan-06 15:04:05 MST"
  else if f = "RFC1123" then env.format "Mon, 02 Jan 2006 15:04:05 MST"
  else if f = "RFC1123Z" then env.format "Mon, 02 Jan 2006 15:04:05 -0700"
  else if f = "RFC3339" then env.format "2006-01-02T15:04:05Z07:00"
  else if f = "RFC3339NANO" then env.format "2006-01-02T15:04:05.999999999Z07:00"
  else if f = "UNIX" then toString env.unix
  else if f = "UNIXMILLI" then toString env.unixMilli
  else if f = "UNIXNANO" then toString env.unixNano
  else if f = "ANSIC" then env.format "Mon Jan _2 15:04:05 2006"
  else if f = "UNIXDATE" then env.format "Mon Jan _2 15:04:05 MST 2006"
  else if f = "RUBYDATE" then env.format "Mon Jan 02 15:04:05 -0700 2006"
  else env.format f

/-- The thirteen recognized format names as the source compares them
(after uppercasing). -/
def recognizedFormats : List String :=
  ["RFC822", "RFC822Z", "RFC850", "RFC1123", "RFC1123Z", "RFC3339",
   "RFC3339NANO", "UNIX", "UNIXMILLI", "UNIXNANO", "ANSIC", "UNIXDATE",
   "RUBYDATE"]

/-- Modelled from the spec (for comparison with `formatTime`): the spec
says the recognized names are matched as written and "an unrecognized name
is treated as a custom strftime-like format string applied directly" —
i.e. without any case conversion. -/
def formatTimeSpec (env : TimeEnv) (format : String) : String :=
  if format = "RFC822" then env.format "02 Jan 06 15:04 MST"
  else if format = "RFC822Z" then env.format "02 Jan 06 15:04 -0700"
  else if format = "RFC850" then env.format "Monday, 02-Jan-06 15:04:05 MST"
  else if format = "RFC1123" then env.format "Mon, 02 Jan 2006 15:04:05 MST"
  else if format = "RFC1123Z" then env.format "Mon, 02 Jan 2006 15:04:05 -0700"
  else if format = "RFC3339" then env.format "2006-01-02T15:04:05Z07:00"
  else if format = "RFC3339Nano" then env.format "2006-01-02T15:04:05.999999999Z07:00"
  else if format = "Unix" then toString env.unix
  else if format = "UnixMilli" then toString env.unixMilli
  else if format = "UnixNano" then toString env.unixNano
  else if format = "ANSIC" then env.format "Mon Jan _2 15:04:05 2006"
  else if format = "UnixDate" then env.format "Mon Jan _2 15:04:05 MST 2006"
  else if format = "RubyDate" then env.format "Mon Jan 02 15:04:05 -0700 2006"
  else env.format format

/-- `generateRandomNumber`: digits clamped to `(0, 18]` (`<= 0` yields
`"0"`, `> 18` becomes 18); the exclusive bound `10^digits` is computed in
exact arithmetic (`big.Int` in the source, `Nat` here) and the uniform
draw in `[0, bound)` is zero-padded to the exact width (`%0*d`). -/
def generateRandomNumber (digits : Int) (draw : Nat) : String :=
  if digits ≤ 0 then "0"
  else
    let d : Nat := if digits > 18 then 18 else digits.toNat
    let bound := 10 ^ d
    let n := draw % bound
    String.mk (List.replicate (d - (natDec n).length) '0' ++ natDec n)

/-- The randomness oracle: `bytes` feeds `crypto/rand.Read` (one entry per
byte), `nats` feeds `rand.Int` (one entry per call, reduced modulo the
requested bound). -/
structure Rng where
  bytes : List Nat
  nats : List Nat

/-- Take exactly `n` values from a stream, or fail (modelling exhaustion
of the randomness source). -/
def takeN (n : Nat) (l : List Nat) : Option (List Nat × List Nat) :=
  if l.length < n then none else some (l.take n, l.drop n)

mutual
/-- A JSON-like dynamic value (`interface\x7b\x7d` holding decoded YAML or
JSON): null, bool, number, string, array, or object.  Objects are
association lists (`JObj`) standing for Go maps; since `encoding/json`
and `fmt` render Go maps in sorted key order, field lists are taken in
that canonical order (the serialization below renders fields in list
order). -/
inductive JVal where
  | null : JVal
  | bool : Bool → JVal
  | num : Int → JVal
  | str : String → JVal
  | arr : JArr → JVal
  | obj : JObj → JVal

/-- A JSON array: list of dynamic values. -/
inductive JArr where
  | nil : JArr
  | cons : JVal → JArr → JArr

/-- A JSON object / Go map: association list of key-value fields. -/
inductive JObj where
  | nil : JObj
  | cons : String → JVal → JObj → JObj
end

/-- `processValue`: try the four patterns in order — `guid`, `uuid`, `now`,
`rnd` — and on no match return the value unchanged. -/
def processValue (env : TimeEnv) (rng : Rng) (value : String) :
    Except String (JVal × Rng) :=
  if containsPat guidTag value.data then
    match takeN 16 rng.bytes with
    | none => .error "failed to generate random bytes"
    | some (bs, rest) => .ok (.str (generateGUID bs), { rng with bytes := rest })
  else if containsPat uuidTag value.data then
    match takeN 16 rng.bytes with
    | none => .error "failed to generate random bytes"
    | some (bs, rest) => .ok (.str (uuidNewString bs), { rng with bytes := rest })
  else
    match findArg nowTag Char.isAlphanum value.data with
    | some a =>
      .ok (.str (formatTime env (if a = [] then "RFC3339" else String.mk a)), rng)
    | none =>
      match findArg rndTag Char.isDigit value.data with
      | some a =>
        let digits : Int := if a = [] then 6 else atoiClamped a
        match rng.nats with
        | [] => .error "failed to generate random number"
        | d :: rest => .ok (.str (generateRandomNumber digits d), { rng with nats := rest })
      | none => .ok (.str value, rng)

/-- One character of a JSON string body as `encoding/json` emits it: the
default encoder escapes quote, backslash, the HTML characters and control
characters. -/
def escChar (c : Char) : List Char :=
  if c = '"' then ['\\', '"']
  else if c = '\\' then ['\\', '\\']
  else if c = '\n' then ['\\', 'n']
  else if c = '\r' then ['\\', 'r']
  else if c = '\t' then ['\\', 't']
  else if c = '<' then ['\\', 'u', '0', '0', '3', 'c']
  else if c = '>' then ['\\', 'u', '0', '0', '3', 'e']
  else if c = '&' then ['\\', 'u', '0', '0', '2', '6']
  else if c.toNat < 32 then ['\\', 'u', '0', '0', hexDigit (c.toNat / 16), hexDigit (c.toNat % 16)]
  else [c]

/-- A JSON string literal, quoted and escaped. -/
def jsonQuote (s : String) : String :=
  "\"" ++ String.mk (s.data.map escChar).flatten ++ "\""

mutual
/-- `json.Marshal` of a dynamic value (fields in the canonical list
order, see `JVal`). -/
def jsonMarshal : JVal → String
  | .null => "null"
  | .bool b => if b then "true" else "false"
  | .num n => toString n
  | .str s => jsonQuote s
  | .arr xs => "[" ++ jsonMarshalArr xs ++ "]"
  | .obj fs => "\x7b" ++ jsonMarshalObj fs ++ "\x7d"

/-- Comma-separated marshal of array elements. -/
def jsonMarshalArr : JArr → String
  | .nil => ""
  | .cons x .nil => jsonMarshal x
  | .cons x tl => jsonMarshal x ++ "," ++ jsonMarshalArr tl

/-- Comma-separated marshal of object fields. -/
def jsonMarshalObj : JObj → String
  | .nil => ""
  | .cons k v .nil => jsonQuote k ++ ":" ++ jsonMarshal v
  | .cons k v tl => jsonQuote k ++ ":" ++ jsonMarshal v ++ "," ++ jsonMarshalObj tl
end

mutual
/-- How `text/template` prints an `interface\x7b\x7d` value with `%v`:
strings raw, numbers and bools as written, nil as `<nil>`, slices
bracketed and maps in `map[k:v]` form. -/
def printValue : JVal → String
  | .null => "<nil>"
  | .bool b => if b then "true" else "false"
  | .num n => toString n
  | .str s => s
  | .arr xs => "[" ++ printValueArr xs ++ "]"
  | .obj fs => "map[" ++ printValueObj fs ++ "]"

/-- Space-separated print of slice elements. -/
def printValueArr : JArr → String
  | .nil => ""
  | .cons x .nil => printValue x
  | .cons x tl => printValue x ++ " " ++ printValueArr tl

/-- Space-separated print of map fields. -/
def printValueObj : JObj → String
  | .nil => ""
  | .cons k v .nil => k ++ ":" ++ printValue v
  | .cons k v tl => k ++ ":" ++ printValue v ++ " " ++ printValueObj tl
end

/-- A parsed `text/template` element: literal text or a `\x7b\x7b.name\x7d\x7d`
field action. -/
inductive Piece where
  | lit : String → Piece
  | field : String → Piece
deriving DecidableEq

/-- Scan an action body up to the closing `\x7d\x7d`, returning body and rest;
`none` models the `unclosed action` parse error. -/
def splitAction : List Char → Option (List Char × List Char)
  | [] => none
  | '}' :: '}' :: rest => some ([], rest)
  | c :: rest =>
    match splitAction rest with
    | some (content, r) => some (c :: content, r)
    | none => none

/-- Parse an action body as a simple field action `.name` (surrounding
spaces allowed); anything else is a parse error.  This models the
`text/template` grammar restricted to the simple name-lookup actions the
engine's contract uses (spec 4.3: no nested field access, no
loops or conditionals). -/
def parseField (content : List Char) : Option String :=
  match dropWS content with
  | '.' :: rest =>
    let (name, r) := spanClass isIdentChar rest
    if name ≠ [] ∧ dropWS r = [] then some (String.mk name) else none
  | _ => none

/-- Fuelled `text/template` parse of the serialized template text into
pieces (`parseTmpl` supplies sufficient fuel). -/
def parseTmplF : Nat → List Char → Option (List Piece)
  | 0, _ => none
  | _ + 1, [] => some []
  | fuel + 1, '{' :: '{' :: rest =>
    match splitAction rest with
    | none => none
    | some (content, r) =>
      match parseField content with
      | none => none
      | some n => (parseTmplF fuel r).map (fun ps => .field n :: ps)
  | fuel + 1, c :: rest => (parseTmplF fuel rest).map (fun ps => .lit (String.mk [c]) :: ps)

/-- `tmpl.New("message").Parse` of the serialized template text. -/
def parseTmpl (cs : List Char) : Option (List Piece) :=
  parseTmplF (cs.length + 1) cs

/-- First-match lookup in a field list (Go map keys are unique, so this is
exactly map indexing). -/
def lookupAssoc (l : JObj) (k : String) : Option JVal :=
  match l with
  | .nil => none
  | .cons k' v r => if k' = k then some v else lookupAssoc r k

/-- Execute one parsed piece against the substitution mapping.  A field
whose name is absent renders as `<no value>`: Go `text/template` with the
default `missingkey` option continues execution and prints the invalid
value, it does not error. -/
def renderPiece (subs : JObj) : Piece → String
  | .lit s => s
  | .field n =>
    match lookupAssoc subs n with
    | some v => printValue v
    | none => "<no value>"

/-- `t.Execute`: render every piece and concatenate. -/
def renderPieces (subs : JObj) (ps : List Piece) : String :=
  String.join (ps.map (renderPiece subs))

/-- `applySubstitutions`: parse the serialized template, then execute it
with the substitution mapping as the data. -/
def applySubstitutions (templateJSON : String) (subs : JObj) :
    Except String String :=
  match parseTmpl templateJSON.data with
  | none => .error "failed to parse template"
  | some ps => .ok (renderPieces subs ps)

/-- The loaded template: the `substitution` and `template` mappings
(field lists standing for the Go maps). -/
structure Template where
  substitution : JObj
  template : JObj

/-- `buildSubstitutions`: a fresh result mapping is populated key by key;
string values go through `processValue` (threading the randomness oracle),
other values are copied unchanged; the first failure aborts the call. -/
def buildSubstitutions (env : TimeEnv) :
    Rng → JObj → Except String (JObj × Rng)
  | rng, .nil => .ok (.nil, rng)
  | rng, .cons k v rest =>
    match v with
    | .str s =>
      match processValue env rng s with
      | .error e => .error ("failed to process key " ++ k ++ ": " ++ e)
      | .ok (pv, rng') =>
        match buildSubstitutions env rng' rest with
        | .error e => .error e
        | .ok (subs, rng'') => .ok (.cons k pv subs, rng'')
    | other =>
      match buildSubstitutions env rng rest with
      | .error e => .error e
      | .ok (subs, rng') => .ok (.cons k other subs, rng')

/-- `Generator.Generate`, with the stored template threaded as explicit
state: build the per-call substitution mapping, marshal the (read-only)
`template` mapping to JSON text, interpolate, and return the bytes
together with the post-call template state.  The source never assigns to
`g.template` or its fields, which the state component makes explicit. -/
def generate (t : Template) (rng : Rng) (env : TimeEnv) :
    Except String String × Template :=
  match buildSubstitutions env rng t.substitution with
  | .error e => (.error ("failed to build substitutions: " ++ e), t)
  | .ok (subs, _) =>
    let templateJSON := jsonMarshal (.obj t.template)
    match applySubstitutions templateJSON subs with
    | .error e => (.error ("failed to apply substitutions: " ++ e), t)
    | .ok out => (.ok out, t)

/-- Outcomes of the two trial parses of the raw file bytes; the loader
never re-reads the file, so both are fixed for a given load attempt. -/
structure ParseAttempts where
  yaml : Except String Template
  json : Except String Template

/-- `filepath.Ext` scan, walking the path backwards (`acc` holds the
characters already passed, in forward order). -/
def filepathExtAux (acc : List Char) : List Char → String
  | [] => ""
  | c :: cs =>
    if c = '/' then ""
    else if c = '.' then String.mk ('.' :: acc)
    else filepathExtAux (c :: acc) cs

/-- Go `filepath.Ext`: the suffix from the final dot of the final path
element, empty when there is none. -/
def filepathExt (p : String) : String :=
  filepathExtAux [] p.data.reverse

/-- `NewGenerator`'s format dispatch: `.json` parses JSON only, `.yaml` or
`.yml` parses YAML only, anything else tries YAML then JSON and reports
both messages when both fail. -/
def loadTemplate (path : String) (att : ParseAttempts) : Except String Template :=
  let ext := strToLower (filepathExt path)
  if ext = ".json" then
    match att.json with
    | .error e => .error ("failed to parse JSON template: " ++ e)
    | .ok t => .ok t
  else if ext = ".yaml" ∨ ext = ".yml" then
    match att.yaml with
    | .error e => .error ("failed to parse YAML template: " ++ e)
    | .ok t => .ok t
  else
    match att.yaml with
    | .ok t => .ok t
    | .error ye =>
      match att.json with
      | .ok t => .ok t
      | .error je =>
        .error ("failed to parse template as YAML or JSON: YAML error: " ++ ye
          ++ ", JSON error: " ++ je)

/-- A substitution value that matches none of the four DSL patterns. -/
def noDSL (s : String) : Bool :=
  !containsPat guidTag s.data && !containsPat uuidTag s.data
    && (findArg nowTag Char.isAlphanum s.data).isNone
    && (findArg rndTag Char.isDigit s.data).isNone

/-- A substitution value free of the randomness-consuming functions
(`guid`, `uuid`, `rnd`); `now` is allowed. -/
def noRandomVal (s : String) : Bool :=
  !containsPat guidTag s.data && !containsPat uuidTag s.data
    && (findArg rndTag Char.isDigit s.data).isNone

/-- A substitution mapping whose string values are all DSL-free. -/
def literalOnly : JObj → Bool
  | .nil => true
  | .cons _ v rest =>
    (match v with
      | .str s => noDSL s
      | _ => true) && literalOnly rest

/-- A substitution mapping free of the randomness-consuming functions
(`guid`, `uuid`, `rnd`); `now` is allowed. -/
def noRandomDSL : JObj → Bool
  | .nil => true
  | .cons _ v rest =>
    (match v with
      | .str s => noRandomVal s
      | _ => true) && noRandomDSL rest

/-- Run of exactly `n` lowercase hex digits, returning the rest. -/
def hexRun : Nat → List Char → Option (List Char)
  | 0, cs => some cs
  | _ + 1, [] => none
  | n + 1, c :: cs => if isHexLower c then hexRun n cs else none

/-- Whether a string matches
`^[0-9a-f]\x7b8\x7d-[0-9a-f]\x7b4\x7d-[0-9a-f]\x7b4\x7d-[0-9a-f]\x7b4\x7d-[0-9a-f]\x7b12\x7d$`,
as a hand-compiled automaton. -/
def guidShape (s : String) : Bool :=
  match hexRun 8 s.data with
  | some ('-' :: r1) =>
    match hexRun 4 r1 with
    | some ('-' :: r2) =>
      match hexRun 4 r2 with
      | some ('-' :: r3) =>
        match hexRun 4 r3 with
        | some ('-' :: r4) => hexRun 12 r4 == some []
        | _ => false
      | _ => false
    | _ => false
  | _ => false

/-- A DSL-free value evaluates to itself, without touching the oracle and
without error. -/
theorem processValue_literal (env : TimeEnv) (rng : Rng) (s : String)
    (h : noDSL s = true) : processValue env rng s = .ok (.str s, rng) := by
  simp only [noDSL, Bool.and_eq_true, Bool.not_eq_true',
    Option.isNone_iff_eq_none] at h
  obtain ⟨⟨⟨hg, hu⟩, hn⟩, hr⟩ := h
  simp [processValue, hg, hu, hn, hr]

/-- A literal-only substitution mapping is reproduced unchanged by
`buildSubstitutions`, for every oracle. -/
theorem buildSubstitutions_literal (env : TimeEnv) :
    ∀ subs : JObj, literalOnly subs = true →
      ∀ rng, buildSubstitutions env rng subs = .ok (subs, rng)
  | .nil => fun _ _ => rfl
  | .cons k v rest => fun h rng => by
    simp only [literalOnly, Bool.and_eq_true] at h
    obtain ⟨h1, h2⟩ := h
    have ih := buildSubstitutions_literal env rest h2 rng
    cases v with
    | str s =>
      simp only at h1
      simp [buildSubstitutions, processValue_literal env rng s h1, ih]
    | null => simp [buildSubstitutions, ih]
    | bool b => simp [buildSubstitutions, ih]
    | num n => simp [buildSubstitutions, ih]
    | arr xs => simp [buildSubstitutions, ih]
    | obj fs => simp [buildSubstitutions, ih]

/-- A value free of the random functions evaluates independently of the
oracle, which it returns unchanged. -/
theorem processValue_noRandom (env : TimeEnv) (s : String)
    (h : noRandomVal s = true) :
    ∃ w, ∀ rng, processValue env rng s = .ok (w, rng) := by
  simp only [noRandomVal, Bool.and_eq_true, Bool.not_eq_true',
    Option.isNone_iff_eq_none] at h
  obtain ⟨⟨hg, hu⟩, hr⟩ := h
  cases hn : findArg nowTag Char.isAlphanum s.data with
  | some a =>
    exact ⟨.str (formatTime env (if a = [] then "RFC3339" else String.mk a)),
      fun rng => by simp [processValue, hg, hu, hn]⟩
  | none =>
    exact ⟨.str s, fun rng => by simp [processValue, hg, hu, hn, hr]⟩

/-- A substitution mapping free of the random functions builds the same
result mapping for every oracle, returning the oracle unchanged. -/
theorem buildSubstitutions_noRandom (env : TimeEnv) :
    ∀ subs : JObj, noRandomDSL subs = true →
      ∃ S, ∀ rng, buildSubstitutions env rng subs = .ok (S, rng)
  | .nil => fun _ => ⟨.nil, fun _ => rfl⟩
  | .cons k v rest => fun h => by
    simp only [noRandomDSL, Bool.and_eq_true] at h
    obtain ⟨h1, h2⟩ := h
    obtain ⟨S, hS⟩ := buildSubstitutions_noRandom env rest h2
    cases v with
    | str s =>
      simp only at h1
      obtain ⟨w, hw⟩ := processValue_noRandom env s h1
      exact ⟨.cons k w S, fun rng => by simp [buildSubstitutions, hw rng, hS rng]⟩
    | null => exact ⟨.cons k .null S, fun rng => by simp [buildSubstitutions, hS rng]⟩
    | bool b => exact ⟨.cons k (.bool b) S, fun rng => by simp [buildSubstitutions, hS rng]⟩
    | num n => exact ⟨.cons k (.num n) S, fun rng => by simp [buildSubstitutions, hS rng]⟩
    | arr xs => exact ⟨.cons k (.arr xs) S, fun rng => by simp [buildSubstitutions, hS rng]⟩
    | obj fs => exact ⟨.cons k (.obj fs) S, fun rng => by simp [buildSubstitutions, hS rng]⟩

/-- C6: `Generate()` leaves the stored Template (both mappings) unchanged:
the post-call state equals the pre-call state, so a later call on the
post-call state behaves exactly as a call on the original template — no
value generated in one call can reach a later call's input state. -/
theorem generate_frame (t : Template) (rng : Rng) (env : TimeEnv) :
    (generate t rng env).2 = t ∧
      ∀ (rng2 : Rng) (env2 : TimeEnv),
        generate (generate t rng env).2 rng2 env2 = generate t rng2 env2 := by
  have h2 : (generate t rng env).2 = t := by
    unfold generate
    rcases buildSubstitutions env rng t.substitution with e | ⟨subs, r⟩
    · rfl
    · simp only
      rcases applySubstitutions (jsonMarshal (.obj t.template)) subs with e | out
      · rfl
      · rfl
  exact ⟨h2, fun rng2 env2 => by rw [h2]⟩

/-- C4: the loader dispatches on the lowercased extension alone: `.json`
consults only the JSON parse, `.yaml`/`.yml` only the YAML parse, and any
other extension takes the YAML parse when it succeeds, falls back to the
JSON parse, and when both fail returns an error carrying both parser
messages (and no template). -/
theorem loadTemplate_dispatch (path : String) (att : ParseAttempts) :
    (strToLower (filepathExt path) = ".json" →
      (∀ t, att.json = .ok t → loadTemplate path att = .ok t) ∧
      (∀ e, att.json = .error e →
        loadTemplate path att = .error ("failed to parse JSON template: " ++ e))) ∧
    ((strToLower (filepathExt path) = ".yaml" ∨ strToLower (filepathExt path) = ".yml") →
      (∀ t, att.yaml = .ok t → loadTemplate path att = .ok t) ∧
      (∀ e, att.yaml = .error e →
        loadTemplate path att = .error ("failed to parse YAML template: " ++ e))) ∧
    (strToLower (filepathExt path) ≠ ".json" →
      ¬(strToLower (filepathExt path) = ".yaml" ∨ strToLower (filepathExt path) = ".yml") →
      (∀ t, att.yaml = .ok t → loadTemplate path att = .ok t) ∧
      (∀ ye t, att.yaml = .error ye → att.json = .ok t → loadTemplate path att = .ok t) ∧
      (∀ ye je, att.yaml = .error ye → att.json = .error je →
        loadTemplate path att =
          .error ("failed to parse template as YAML or JSON: YAML error: " ++ ye
            ++ ", JSON error: " ++ je))) := by
  refine ⟨fun hx => ⟨fun t ht => ?_, fun e he => ?_⟩,
    fun hx => ⟨fun t ht => ?_, fun e he => ?_⟩,
    fun hx hy => ⟨fun t ht => ?_, fun ye t hye ht => ?_, fun ye je hye hje => ?_⟩⟩
  · simp [loadTemplate, hx, ht]
  · simp [loadTemplate, hx, he]
  · rcases hx with hx | hx <;> simp [loadTemplate, hx, ht]
  · rcases hx with hx | hx <;> simp [loadTemplate, hx, he]
  · simp only [not_or] at hy
    simp [loadTemplate, hx, hy.1, hy.2, ht]
  · simp only [not_or] at hy
    simp [loadTemplate, hx, hy.1, hy.2, hye, ht]
  · simp only [not_or] at hy
    simp [loadTemplate, hx, hy.1, hy.2, hye, hje]

/-- Witness for C4: a `.cfg` path with both parses failing yields the
combined error. -/
theorem loadTemplate_dispatch_witness :
    strToLower (filepathExt "t.cfg") ≠ ".json" ∧
    ¬(strToLower (filepathExt "t.cfg") = ".yaml" ∨ strToLower (filepathExt "t.cfg") = ".yml") ∧
    loadTemplate "t.cfg" ⟨.error "y", .error "j"⟩ =
      .error "failed to parse template as YAML or JSON: YAML error: y, JSON error: j" :=
  ⟨by decide, by decide,
    ((loadTemplate_dispatch "t.cfg" ⟨.error "y", .error "j"⟩).2.2 (by decide)
      (by decide)).2.2 "y" "j" rfl rfl⟩

/-- C1 counterexample: with substitution mapping empty and template
`\x7b"x":"\x7b\x7b.missing\x7d\x7d"\x7d`, `Generate()` does not return an
error — it succeeds and substitutes the filler text `<no value>` for the
unresolved placeholder. -/
theorem generate_missing_key_succeeds :
    (generate ⟨.nil, .cons "x" (.str "\x7b\x7b.missing\x7d\x7d") .nil⟩ ⟨[], []⟩
        ⟨fun _ => "", 0, 0, 0⟩).1
      = .ok "\x7b\"x\":\"<no value>\"\x7d" := rfl

/-- C1 amended: a placeholder whose name is absent from the evaluated
substitution mapping is not a render error; execution succeeds and the
placeholder is replaced by the filler value `<no value>` (the Go
`text/template` default `missingkey` behavior). -/
theorem render_missing_key_filler (subs : JObj) (text : String)
    (ps : List Piece) (name : String)
    (hp : parseTmpl text.data = some ps)
    (_hm : Piece.field name ∈ ps)
    (hl : lookupAssoc subs name = none) :
    applySubstitutions text subs = .ok (renderPieces subs ps) ∧
      renderPiece subs (.field name) = "<no value>" := by
  refine ⟨?_, ?_⟩
  · simp [applySubstitutions, hp]
  · simp [renderPiece, hl]

/-- Witness for the amended C1. -/
theorem render_missing_key_filler_witness :
    parseTmpl ("a\x7b\x7b.missing\x7d\x7db" : String).data
        = some [Piece.lit "a", Piece.field "missing", Piece.lit "b"] ∧
      Piece.field "missing" ∈ [Piece.lit "a", Piece.field "missing", Piece.lit "b"] ∧
      lookupAssoc .nil "missing" = none ∧
      (applySubstitutions "a\x7b\x7b.missing\x7d\x7db" .nil
          = .ok (renderPieces .nil [Piece.lit "a", Piece.field "missing", Piece.lit "b"]) ∧
        renderPiece .nil (.field "missing") = "<no value>") :=
  ⟨rfl, by decide, rfl,
    render_missing_key_filler .nil "a\x7b\x7b.missing\x7d\x7db"
      [Piece.lit "a", Piece.field "missing", Piece.lit "b"] "missing" rfl (by decide) rfl⟩

/-- C3 counterexample: for the unrecognized format name `Jan` the code
applies the uppercased string `JAN` as the custom layout, not the format
string unchanged (observed through an identity rendering environment and
against the spec-literal `formatTimeSpec`). -/
theorem formatTime_not_applied_unchanged :
    formatTime ⟨fun l => l, 0, 0, 0⟩ "Jan" = "JAN" ∧
      formatTimeSpec ⟨fun l => l, 0, 0, 0⟩ "Jan" = "Jan" ∧
      ("JAN" : String) ≠ "Jan" :=
  ⟨rfl, rfl, by decide⟩

/-- C3 amended: the format name is first uppercased; the thirteen
recognized names are therefore matched case-insensitively, an unrecognized
FORMAT is applied as a custom layout in its uppercased form, and an
omitted FORMAT defaults to RFC3339. -/
theorem formatTime_amended (env : TimeEnv) (format : String) :
    (strToUpper format ∉ recognizedFormats →
      formatTime env format = env.format (strToUpper format)) ∧
    (∀ rng, processValue env rng "\x7b\x7b@now\x7d\x7d"
      = .ok (.str (formatTime env "RFC3339"), rng)) ∧
    formatTime env "RFC3339" = env.format "2006-01-02T15:04:05Z07:00" := by
  refine ⟨fun h => ?_, fun rng => rfl, rfl⟩
  simp only [recognizedFormats, List.mem_cons, List.not_mem_nil, or_false, not_or] at h
  obtain ⟨h1, h2, h3, h4, h5, h6, h7, h8, h9, h10, h11, h12, h13⟩ := h
  simp [formatTime, h1, h2, h3, h4, h5, h6, h7, h8, h9, h10, h11, h12, h13]

/-- Witness for the amended C3. -/
theorem formatTime_amended_witness :
    strToUpper "XYZw" ∉ recognizedFormats ∧
      formatTime ⟨fun l => l, 1, 2, 3⟩ "XYZw"
        = TimeEnv.format ⟨fun l => l, 1, 2, 3⟩ (strToUpper "XYZw") :=
  ⟨by decide, (formatTime_amended ⟨fun l => l, 1, 2, 3⟩ "XYZw").1 (by decide)⟩

/-- C5: the evaluator tests the four patterns in the fixed order `guid`,
`uuid`, `now`, `rnd`, applies only the first that matches (a value
containing the `guid` pattern behaves exactly like the pure `guid`
pattern, whatever else it contains, and so on down the chain), and any
value matching none of the four — malformed function-like strings
included — is returned unchanged, never as an error. -/
theorem processValue_dispatch (env : TimeEnv) (rng : Rng) (v : String) :
    (containsPat guidTag v.data = true →
      processValue env rng v = processValue env rng "\x7b\x7b@guid\x7d\x7d") ∧
    (containsPat guidTag v.data = false → containsPat uuidTag v.data = true →
      processValue env rng v = processValue env rng "\x7b\x7b@uuid\x7d\x7d") ∧
    (containsPat guidTag v.data = false → containsPat uuidTag v.data = false →
      ∀ a, findArg nowTag Char.isAlphanum v.data = some a →
        processValue env rng v =
          .ok (.str (formatTime env (if a = [] then "RFC3339" else String.mk a)), rng)) ∧
    (containsPat guidTag v.data = false → containsPat uuidTag v.data = false →
      findArg nowTag Char.isAlphanum v.data = none →
      ∀ a, findArg rndTag Char.isDigit v.data = some a →
        processValue env rng v =
          (match rng.nats with
            | [] => .error "failed to generate random number"
            | d :: rest =>
              .ok (.str (generateRandomNumber (if a = [] then 6 else atoiClamped a) d),
                { rng with nats := rest }))) ∧
    (noDSL v = true → processValue env rng v = .ok (.str v, rng)) := by
  have hgc : containsPat guidTag (("\x7b\x7b@guid\x7d\x7d" : String)).data = true := by decide
  have hug : containsPat guidTag (("\x7b\x7b@uuid\x7d\x7d" : String)).data = false := by decide
  have huc : containsPat uuidTag (("\x7b\x7b@uuid\x7d\x7d" : String)).data = true := by decide
  refine ⟨fun h => ?_, fun h hu => ?_, fun h hu a hn => ?_, fun h hu hn a hr => ?_,
    fun h => processValue_literal env rng v h⟩
  · simp [processValue, h, hgc]
  · simp [processValue, h, hu, hug, huc]
  · simp [processValue, h, hu, hn]
  · simp [processValue, h, hu, hn, hr]

/-- Witness for C5: a value containing both the `uuid` and `guid` patterns
takes the `guid` branch, and the malformed `rnd` argument `x` makes the
whole value a literal. -/
theorem processValue_dispatch_witness :
    containsPat guidTag (("\x7b\x7b@uuid\x7d\x7d \x7b\x7b@guid\x7d\x7d" : String)).data = true ∧
    processValue ⟨fun l => l, 0, 0, 0⟩ ⟨[], []⟩ "\x7b\x7b@uuid\x7d\x7d \x7b\x7b@guid\x7d\x7d"
      = processValue ⟨fun l => l, 0, 0, 0⟩ ⟨[], []⟩ "\x7b\x7b@guid\x7d\x7d" ∧
    noDSL "\x7b\x7b@rnd|x\x7d\x7d" = true ∧
    processValue ⟨fun l => l, 0, 0, 0⟩ ⟨[], []⟩ "\x7b\x7b@rnd|x\x7d\x7d"
      = .ok (.str "\x7b\x7b@rnd|x\x7d\x7d", ⟨[], []⟩) :=
  ⟨by decide,
    (processValue_dispatch ⟨fun l => l, 0, 0, 0⟩ ⟨[], []⟩
      "\x7b\x7b@uuid\x7d\x7d \x7b\x7b@guid\x7d\x7d").1 (by decide),
    by decide,
    (processValue_dispatch ⟨fun l => l, 0, 0, 0⟩ ⟨[], []⟩
      "\x7b\x7b@rnd|x\x7d\x7d").2.2.2.2 (by decide)⟩

/-- C8: a template whose substitution values contain no DSL function
renders to exactly the same bytes on every call (independent of the
randomness oracle and of the call instant); in particular the literal
template of the claim always yields `\x7b"x":"static-value"\x7d`. -/
theorem generate_literal_deterministic (t : Template)
    (h : literalOnly t.substitution = true) :
    (∀ rng1 env1 rng2 env2, (generate t rng1 env1).1 = (generate t rng2 env2).1) ∧
    (t = ⟨.cons "id" (.str "static-value") .nil,
          .cons "x" (.str "\x7b\x7b.id\x7d\x7d") .nil⟩ →
      ∀ rng env, (generate t rng env).1 = .ok "\x7b\"x\":\"static-value\"\x7d") := by
  constructor
  · intro rng1 env1 rng2 env2
    unfold generate
    rw [buildSubstitutions_literal env1 t.substitution h rng1,
      buildSubstitutions_literal env2 t.substitution h rng2]
  · intro ht rng env
    subst ht
    rfl

/-- Witness for C8. -/
theorem generate_literal_deterministic_witness :
    literalOnly (JObj.cons "id" (.str "static-value") .nil) = true ∧
    (generate ⟨.cons "id" (.str "static-value") .nil,
        .cons "x" (.str "\x7b\x7b.id\x7d\x7d") .nil⟩ ⟨[1], [2]⟩ ⟨fun _ => "now", 4, 5, 6⟩).1
      = .ok "\x7b\"x\":\"static-value\"\x7d" :=
  ⟨by decide,
    (generate_literal_deterministic
      ⟨.cons "id" (.str "static-value") .nil, .cons "x" (.str "\x7b\x7b.id\x7d\x7d") .nil⟩
      (by decide)).2 rfl ⟨[1], [2]⟩ ⟨fun _ => "now", 4, 5, 6⟩⟩

/-- C9: when a YAML-extension file and a JSON-extension file load to the
same logical Template whose substitutions use no random DSL function, the
two generators produce identical output bytes (hence output parsing to
structurally equal JSON); the call instant is held fixed by sharing the
time environment, the randomness oracles may differ freely. -/
theorem yaml_json_equivalent_outputs
    (pY pJ : String) (attY attJ : ParseAttempts) (t t' : Template)
    (rng1 rng2 : Rng) (env : TimeEnv)
    (_hY : strToLower (filepathExt pY) = ".yaml")
    (_hJ : strToLower (filepathExt pJ) = ".json")
    (_hLY : loadTemplate pY attY = .ok t)
    (_hLJ : loadTemplate pJ attJ = .ok t')
    (heq : t = t')
    (hnr : noRandomDSL t.substitution = true) :
    (generate t rng1 env).1 = (generate t' rng2 env).1 := by
  subst heq
  obtain ⟨S, hS⟩ := buildSubstitutions_noRandom env t.substitution hnr
  unfold generate
  rw [hS rng1, hS rng2]

/-- Witness for C9, mirroring the repository's own YAML-versus-JSON test
content. -/
theorem yaml_json_equivalent_outputs_witness :
    strToLower (filepathExt "p.yaml") = ".yaml" ∧
    strToLower (filepathExt "p.json") = ".json" ∧
    loadTemplate "p.yaml"
        ⟨.ok ⟨.cons "staticId" (.str "test-123") .nil,
            .cons "id" (.str "\x7b\x7b.staticId\x7d\x7d") .nil⟩, .error "e"⟩
      = .ok ⟨.cons "staticId" (.str "test-123") .nil,
          .cons "id" (.str "\x7b\x7b.staticId\x7d\x7d") .nil⟩ ∧
    loadTemplate "p.json"
        ⟨.error "e", .ok ⟨.cons "staticId" (.str "test-123") .nil,
            .cons "id" (.str "\x7b\x7b.staticId\x7d\x7d") .nil⟩⟩
      = .ok ⟨.cons "staticId" (.str "test-123") .nil,
          .cons "id" (.str "\x7b\x7b.staticId\x7d\x7d") .nil⟩ ∧
    noRandomDSL (JObj.cons "staticId" (.str "test-123") .nil) = true ∧
    (generate ⟨.cons "staticId" (.str "test-123") .nil,
        .cons "id" (.str "\x7b\x7b.staticId\x7d\x7d") .nil⟩ ⟨[9], []⟩ ⟨fun _ => "T", 0, 0, 0⟩).1
      = (generate ⟨.cons "staticId" (.str "test-123") .nil,
          .cons "id" (.str "\x7b\x7b.staticId\x7d\x7d") .nil⟩ ⟨[], [3]⟩ ⟨fun _ => "T", 0, 0, 0⟩).1 :=
  ⟨rfl, rfl, rfl, rfl, by decide,
    yaml_json_equivalent_outputs "p.yaml" "p.json"
      ⟨.ok ⟨.cons "staticId" (.str "test-123") .nil,
          .cons "id" (.str "\x7b\x7b.staticId\x7d\x7d") .nil⟩, .error "e"⟩
      ⟨.error "e", .ok ⟨.cons "staticId" (.str "test-123") .nil,
          .cons "id" (.str "\x7b\x7b.staticId\x7d\x7d") .nil⟩⟩
      ⟨.cons "staticId" (.str "test-123") .nil,
        .cons "id" (.str "\x7b\x7b.staticId\x7d\x7d") .nil⟩
      ⟨.cons "staticId" (.str "test-123") .nil,
        .cons "id" (.str "\x7b\x7b.staticId\x7d\x7d") .nil⟩
      ⟨[9], []⟩ ⟨[], [3]⟩ ⟨fun _ => "T", 0, 0, 0⟩
      rfl rfl rfl rfl rfl (by decide)⟩

/-- `digitChar` always yields a decimal digit character. -/
theorem digitChar_isDigit (m : Nat) : (digitChar m).isDigit = true := by
  by_cases h : m < 10
  · interval_cases m <;> rfl
  · rw [digitChar, List.getD_eq_default]
    · rfl
    · have hl : (("0123456789" : String)).data.length = 10 := rfl
      omega

/-- Code of the digit character for `m < 10`. -/
theorem digitChar_toNat (m : Nat) (h : m < 10) : (digitChar m).toNat = 48 + m := by
  interval_cases m <;> rfl

/-- Appending one digit multiplies the value by ten and adds it. -/
theorem decValue_append_digit (l : List Char) (c : Char) :
    decValue (l ++ [c]) = 10 * decValue l + (c.toNat - 48) := by
  simp [decValue, List.foldl_append]

/-- A leading zero does not change the value. -/
theorem decValue_cons_zero (l : List Char) : decValue ('0' :: l) = decValue l := by
  have h : (10 * 0 + ('0'.toNat - 48)) = 0 := by decide
  simp [decValue, List.foldl_cons, h]

/-- Left zero-padding does not change the value. -/
theorem decValue_replicate_zero (k : Nat) (l : List Char) :
    decValue (List.replicate k '0' ++ l) = decValue l := by
  induction k with
  | zero => simp
  | succ n ih => simpa [List.replicate_succ, decValue_cons_zero] using ih

/-- The fuelled decimal representation evaluates back to its input. -/
theorem natDecF_decValue : ∀ fuel n, n < fuel → decValue (natDecF fuel n) = n := by
  intro fuel
  induction fuel with
  | zero => intro n h; omega
  | succ f ih =>
    intro n h
    by_cases h10 : n < 10
    · rw [show natDecF (f + 1) n = [digitChar n] by simp [natDecF, h10]]
      simp [decValue]
      rw [digitChar_toNat n h10]
      omega
    · rw [show natDecF (f + 1) n = natDecF f (n / 10) ++ [digitChar (n % 10)] by
        simp [natDecF, h10]]
      rw [decValue_append_digit, ih (n / 10) (by omega),
        digitChar_toNat (n % 10) (by omega)]
      omega

/-- The fuelled decimal representation is never empty. -/
theorem natDecF_ne_nil : ∀ fuel n, n < fuel → natDecF fuel n ≠ [] := by
  intro fuel
  induction fuel with
  | zero => intro n h; omega
  | succ f _ =>
    intro n _
    by_cases h10 : n < 10 <;> simp [natDecF, h10]

/-- Every character of the fuelled decimal representation is a digit. -/
theorem natDecF_digits : ∀ fuel n, n < fuel →
    ∀ c ∈ natDecF fuel n, c.isDigit = true := by
  intro fuel
  induction fuel with
  | zero => intro n h; omega
  | succ f ih =>
    intro n h c hc
    by_cases h10 : n < 10
    · simp [natDecF, h10] at hc
      subst hc
      exact digitChar_isDigit n
    · simp only [natDecF, h10, if_false, List.mem_append, List.mem_singleton] at hc
      rcases hc with hc | hc
      · exact ih (n / 10) (by omega) c hc
      · subst hc
        exact digitChar_isDigit (n % 10)

/-- Digit count of the fuelled decimal representation: at most `d` when
the value is below `10 ^ d`. -/
theorem natDecF_length : ∀ fuel n, n < fuel →
    ∀ d, 1 ≤ d → n < 10 ^ d → (natDecF fuel n).length ≤ d := by
  intro fuel
  induction fuel with
  | zero => intro n h; omega
  | succ f ih =>
    intro n h d hd hpow
    by_cases h10 : n < 10
    · rw [show natDecF (f + 1) n = [digitChar n] by simp [natDecF, h10]]
      simpa using hd
    · have hd2 : 2 ≤ d := by
        rcases d with _ | _ | d
        · omega
        · simp at hpow; omega
        · omega
      have hsplit : (10 : Nat) ^ d = 10 ^ (d - 1) * 10 := by
        rw [← pow_succ]
        congr 1
        omega
      have hdiv : n / 10 < 10 ^ (d - 1) := by
        rw [Nat.div_lt_iff_lt_mul (by norm_num)]
        omega
      rw [show natDecF (f + 1) n = natDecF f (n / 10) ++ [digitChar (n % 10)] by
        simp [natDecF, h10]]
      have := ih (n / 10) (by omega) (d - 1) (by omega) hdiv
      simp only [List.length_append, List.length_singleton]
      omega

/-- `natDec` round-trips through `decValue`. -/
theorem natDec_decValue (n : Nat) : decValue (natDec n) = n :=
  natDecF_decValue (n + 1) n (by omega)

/-- `natDec` is never empty. -/
theorem natDec_ne_nil (n : Nat) : natDec n ≠ [] :=
  natDecF_ne_nil (n + 1) n (by omega)

/-- `natDec` consists of digits. -/
theorem natDec_digits (n : Nat) : ∀ c ∈ natDec n, c.isDigit = true :=
  natDecF_digits (n + 1) n (by omega)

/-- `natDec n` has at most `d` digits when `n < 10 ^ d`. -/
theorem natDec_length (n d : Nat) (hd : 1 ≤ d) (hp : n < 10 ^ d) :
    (natDec n).length ≤ d :=
  natDecF_length (n + 1) n (by omega) d hd hp

/-- C2: for `0 < N <= 18` the `rnd|N` output has length exactly `N`,
consists only of decimal digits, and its integer value is below the
exclusive bound `10 ^ N` computed in exact arithmetic; `N <= 0` yields
`"0"`, `N > 18` behaves as `N = 18`; and a substitution value whose first
matching pattern is `rnd` with argument `N` evaluates through
`generateRandomNumber N` on the next oracle draw. -/
theorem generateRandomNumber_spec (N : Nat) (h1 : 1 ≤ N) (h18 : N ≤ 18)
    (draw : Nat) :
    ((generateRandomNumber (N : Int) draw).length = N ∧
      (∀ c ∈ (generateRandomNumber (N : Int) draw).data, c.isDigit = true) ∧
      decValue (generateRandomNumber (N : Int) draw).data < 10 ^ N) ∧
    (∀ m : Int, m ≤ 0 → generateRandomNumber m draw = "0") ∧
    (∀ m : Int, 18 < m → generateRandomNumber m draw = generateRandomNumber 18 draw) ∧
    (∀ (env : TimeEnv) (rng : Rng) (v : String) (d : Nat) (rest : List Nat),
      containsPat guidTag v.data = false → containsPat uuidTag v.data = false →
      findArg nowTag Char.isAlphanum v.data = none →
      findArg rndTag Char.isDigit v.data = some (natDec N) →
      rng.nats = d :: rest →
      processValue env rng v
        = .ok (.str (generateRandomNumber (N : Int) d), { rng with nats := rest })) := by
  have hgen : ∀ dr : Nat, generateRandomNumber (N : Int) dr
      = String.mk (List.replicate (N - (natDec (dr % 10 ^ N)).length) '0'
          ++ natDec (dr % 10 ^ N)) := by
    intro dr
    have hd0 : ¬((N : Int) ≤ 0) := by exact_mod_cast (by omega : ¬(N ≤ 0))
    have hd18 : ¬((N : Int) > 18) := by
      simp only [gt_iff_lt, not_lt]
      exact_mod_cast h18
    simp only [generateRandomNumber, if_neg hd0, if_neg hd18, Int.toNat_natCast]
  have hn : draw % 10 ^ N < 10 ^ N := Nat.mod_lt _ (by positivity)
  have hlen : (natDec (draw % 10 ^ N)).length ≤ N := natDec_length _ N h1 hn
  refine ⟨⟨?_, ?_, ?_⟩, ?_, ?_, ?_⟩
  · rw [hgen draw]
    show (List.replicate (N - (natDec (draw % 10 ^ N)).length) '0'
      ++ natDec (draw % 10 ^ N)).length = N
    simp only [List.length_append, List.length_replicate]
    omega
  · rw [hgen draw]
    intro c hc
    simp only [String.data] at hc
    rw [List.mem_append] at hc
    rcases hc with hc | hc
    · rw [List.eq_of_mem_replicate hc]
      rfl
    · exact natDec_digits _ c hc
  · rw [hgen draw]
    show decValue (List.replicate (N - (natDec (draw % 10 ^ N)).length) '0'
      ++ natDec (draw % 10 ^ N)) < 10 ^ N
    rw [decValue_replicate_zero, natDec_decValue]
    exact hn
  · intro m hm
    simp [generateRandomNumber, hm]
  · intro m hm
    have hm0 : ¬(m ≤ 0) := by omega
    have h180 : ¬((18 : Int) ≤ 0) := by norm_num
    have h1818 : ¬((18 : Int) > 18) := by norm_num
    simp only [generateRandomNumber, if_neg hm0, if_neg h180, if_neg h1818,
      if_pos hm, show Int.toNat 18 = 18 from rfl]
  · intro env rng v d rest hg hu hnx hr hnats
    have hne : ¬(natDec N = []) := natDec_ne_nil N
    have hatoi : atoiClamped (natDec N) = (N : Int) := by
      simp only [atoiClamped, natDec_decValue]
      rw [if_pos (by omega)]
    simp [processValue, hg, hu, hnx, hr, hnats, hne, hatoi]

/-- Witness for C2 at `N = 3`, oracle draw 7, on the value
`\x7b\x7b@rnd|3\x7d\x7d`. -/
theorem generateRandomNumber_spec_witness :
    1 ≤ 3 ∧ 3 ≤ 18 ∧
    containsPat guidTag (("\x7b\x7b@rnd|3\x7d\x7d" : String)).data = false ∧
    containsPat uuidTag (("\x7b\x7b@rnd|3\x7d\x7d" : String)).data = false ∧
    findArg nowTag Char.isAlphanum (("\x7b\x7b@rnd|3\x7d\x7d" : String)).data = none ∧
    findArg rndTag Char.isDigit (("\x7b\x7b@rnd|3\x7d\x7d" : String)).data = some (natDec 3) ∧
    (generateRandomNumber ((3 : Nat) : Int) 7).length = 3 ∧
    processValue ⟨fun l => l, 0, 0, 0⟩ ⟨[], [7, 8]⟩ "\x7b\x7b@rnd|3\x7d\x7d"
      = .ok (.str (generateRandomNumber ((3 : Nat) : Int) 7), ⟨[], [8]⟩) :=
  ⟨by omega, by omega, by decide, by decide, by decide, by decide,
    ((generateRandomNumber_spec 3 (by omega) (by omega) 7).1).1,
    ((generateRandomNumber_spec 3 (by omega) (by omega) 7).2.2.2
      ⟨fun l => l, 0, 0, 0⟩ ⟨[], [7, 8]⟩ "\x7b\x7b@rnd|3\x7d\x7d" 7 [8]
      (by decide) (by decide) (by decide) (by decide) rfl)⟩

/-- `hexDigit` always yields a lowercase hex digit character. -/
theorem hexDigit_hex (m : Nat) : isHexLower (hexDigit m) = true := by
  by_cases h : m < 16
  · interval_cases m <;> rfl
  · rw [hexDigit, List.getD_eq_default]
    · rfl
    · have hl : (("0123456789abcdef" : String)).data.length = 16 := rfl
      omega

/-- Every character of a hex-rendered byte slice is a lowercase hex digit. -/
theorem hexBytesL_hex : ∀ bs : List Nat, ∀ c ∈ hexBytesL bs, isHexLower c = true := by
  intro bs
  induction bs with
  | nil => intro c hc; simp [hexBytesL] at hc
  | cons b rest ih =>
    intro c hc
    simp only [hexBytesL, List.map_cons, List.flatten_cons, List.mem_append] at hc
    rcases hc with hc | hc
    · simp only [hexByteL, List.mem_cons, List.not_mem_nil, or_false] at hc
      rcases hc with hc | hc <;> (subst hc; exact hexDigit_hex _)
    · exact ih c hc

/-- A hex-rendered byte slice has two characters per byte. -/
theorem hexBytesL_length : ∀ bs : List Nat, (hexBytesL bs).length = 2 * bs.length := by
  intro bs
  induction bs with
  | nil => rfl
  | cons b rest ih =>
    simp only [hexBytesL, List.map_cons, List.flatten_cons, List.length_append,
      List.length_cons] at *
    simp [hexByteL] at *
    omega

/-- A run of hex characters of exactly the run length is consumed whole. -/
theorem hexRun_exact : ∀ l r : List Char, (∀ c ∈ l, isHexLower c = true) →
    hexRun l.length (l ++ r) = some r := by
  intro l
  induction l with
  | nil => intro r _; rfl
  | cons c cs ih =>
    intro r h
    have hc : isHexLower c = true := h c (List.mem_cons_self c cs)
    simp only [List.length_cons, List.cons_append, hexRun, hc, if_true]
    exact ih r (fun d hd => h d (List.mem_cons_of_mem c hd))

/-- Five dash-separated hex groups of widths 8-4-4-4-12 match the GUID
shape. -/
theorem guidShape_groups (A B C D E : List Char)
    (hA : ∀ c ∈ A, isHexLower c = true) (hB : ∀ c ∈ B, isHexLower c = true)
    (hC : ∀ c ∈ C, isHexLower c = true) (hD : ∀ c ∈ D, isHexLower c = true)
    (hE : ∀ c ∈ E, isHexLower c = true)
    (lA : A.length = 8) (lB : B.length = 4) (lC : C.length = 4)
    (lD : D.length = 4) (lE : E.length = 12) :
    guidShape (String.mk (A ++ '-' :: (B ++ '-' :: (C ++ '-' :: (D ++ '-' :: E))))) = true := by
  have e1 : hexRun 8 (A ++ '-' :: (B ++ '-' :: (C ++ '-' :: (D ++ '-' :: E))))
      = some ('-' :: (B ++ '-' :: (C ++ '-' :: (D ++ '-' :: E)))) := by
    rw [← lA]
    exact hexRun_exact A _ hA
  have e2 : hexRun 4 (B ++ '-' :: (C ++ '-' :: (D ++ '-' :: E)))
      = some ('-' :: (C ++ '-' :: (D ++ '-' :: E))) := by
    rw [← lB]
    exact hexRun_exact B _ hB
  have e3 : hexRun 4 (C ++ '-' :: (D ++ '-' :: E)) = some ('-' :: (D ++ '-' :: E)) := by
    rw [← lC]
    exact hexRun_exact C _ hC
  have e4 : hexRun 4 (D ++ '-' :: E) = some ('-' :: E) := by
    rw [← lD]
    exact hexRun_exact D _ hD
  have e5 : hexRun 12 E = some [] := by
    have := hexRun_exact E [] hE
    rw [List.append_nil, lE] at this
    exact this
  simp only [guidShape, e1, e2, e3, e4, e5]
  rfl

/-- C7: for any 16 oracle bytes, the `guid` output matches the
8-4-4-4-12 lowercase-hex shape with no bits forced (its version nibble is
exactly the high nibble of raw byte 6), and the `uuid` output matches the
same shape with version nibble `4` and an RFC 4122 variant nibble; a value
matching `\x7b\x7b@guid\x7d\x7d` (resp. `\x7b\x7b@uuid\x7d\x7d`) consumes
exactly those 16 bytes from the oracle. -/
theorem guid_uuid_shapes (b0 b1 b2 b3 b4 b5 b6 b7 b8 b9 b10 b11 b12 b13 b14 b15 : Nat)
    (env : TimeEnv) (bytesRest ns : List Nat) :
    guidShape (generateGUID [b0, b1, b2, b3, b4, b5, b6, b7, b8, b9, b10, b11, b12, b13, b14, b15]) = true ∧
    (generateGUID [b0, b1, b2, b3, b4, b5, b6, b7, b8, b9, b10, b11, b12, b13, b14, b15]).data.getD 14 ' '
      = hexDigit (b6 / 16 % 16) ∧
    guidShape (uuidNewString [b0, b1, b2, b3, b4, b5, b6, b7, b8, b9, b10, b11, b12, b13, b14, b15]) = true ∧
    (uuidNewString [b0, b1, b2, b3, b4, b5, b6, b7, b8, b9, b10, b11, b12, b13, b14, b15]).data.getD 14 ' '
      = '4' ∧
    (uuidNewString [b0, b1, b2, b3, b4, b5, b6, b7, b8, b9, b10, b11, b12, b13, b14, b15]).data.getD 19 ' '
      ∈ ['8', '9', 'a', 'b'] ∧
    processValue env ⟨b0 :: b1 :: b2 :: b3 :: b4 :: b5 :: b6 :: b7 :: b8 :: b9 :: b10 :: b11 :: b12 :: b13 :: b14 :: b15 :: bytesRest, ns⟩
        "\x7b\x7b@guid\x7d\x7d"
      = .ok (.str (generateGUID [b0, b1, b2, b3, b4, b5, b6, b7, b8, b9, b10, b11, b12, b13, b14, b15]),
          ⟨bytesRest, ns⟩) ∧
    processValue env ⟨b0 :: b1 :: b2 :: b3 :: b4 :: b5 :: b6 :: b7 :: b8 :: b9 :: b10 :: b11 :: b12 :: b13 :: b14 :: b15 :: bytesRest, ns⟩
        "\x7b\x7b@uuid\x7d\x7d"
      = .ok (.str (uuidNewString [b0, b1, b2, b3, b4, b5, b6, b7, b8, b9, b10, b11, b12, b13, b14, b15]),
          ⟨bytesRest, ns⟩) := by
  have htake : takeN 16 (b0 :: b1 :: b2 :: b3 :: b4 :: b5 :: b6 :: b7 :: b8 :: b9 :: b10 :: b11 :: b12 :: b13 :: b14 :: b15 :: bytesRest)
      = some ([b0, b1, b2, b3, b4, b5, b6, b7, b8, b9, b10, b11, b12, b13, b14, b15], bytesRest) := by
    rw [takeN, if_neg (by simp)]
    rfl
  refine ⟨?_, ?_, ?_, ?_, ?_, ?_, ?_⟩
  · exact guidShape_groups
      (hexBytesL [b0, b1, b2, b3]) (hexBytesL [b4, b5]) (hexBytesL [b6, b7])
      (hexBytesL [b8, b9]) (hexBytesL [b10, b11, b12, b13, b14, b15])
      (hexBytesL_hex _) (hexBytesL_hex _) (hexBytesL_hex _) (hexBytesL_hex _)
      (hexBytesL_hex _)
      (by rw [hexBytesL_length]; rfl) (by rw [hexBytesL_length]; rfl)
      (by rw [hexBytesL_length]; rfl) (by rw [hexBytesL_length]; rfl)
      (by rw [hexBytesL_length]; rfl)
  · rfl
  · exact guidShape_groups
      (hexBytesL [b0, b1, b2, b3]) (hexBytesL [b4, b5])
      (hexBytesL [b6 % 16 + 64, b7]) (hexBytesL [b8 % 64 + 128, b9])
      (hexBytesL [b10, b11, b12, b13, b14, b15])
      (hexBytesL_hex _) (hexBytesL_hex _) (hexBytesL_hex _) (hexBytesL_hex _)
      (hexBytesL_hex _)
      (by rw [hexBytesL_length]; rfl) (by rw [hexBytesL_length]; rfl)
      (by rw [hexBytesL_length]; rfl) (by rw [hexBytesL_length]; rfl)
      (by rw [hexBytesL_length]; rfl)
  · show hexDigit ((b6 % 16 + 64) / 16 % 16) = '4'
    have h4 : (b6 % 16 + 64) / 16 % 16 = 4 := by omega
    rw [h4]
    rfl
  · show hexDigit ((b8 % 64 + 128) / 16 % 16) ∈ ['8', '9', 'a', 'b']
    have hv : (b8 % 64 + 128) / 16 % 16 = 8 ∨ (b8 % 64 + 128) / 16 % 16 = 9
        ∨ (b8 % 64 + 128) / 16 % 16 = 10 ∨ (b8 % 64 + 128) / 16 % 16 = 11 := by
      omega
    rcases hv with hv | hv | hv | hv <;> rw [hv] <;> decide
  · have hg : containsPat guidTag (("\x7b\x7b@guid\x7d\x7d" : String)).data = true := by decide
    simp only [processValue, hg, if_true, htake]
  · have hg : containsPat guidTag (("\x7b\x7b@uuid\x7d\x7d" : String)).data = false := by decide
    have hu : containsPat uuidTag (("\x7b\x7b@uuid\x7d\x7d" : String)).data = true := by decide
    simp only [processValue, hg, hu, if_true, Bool.false_eq_true, if_false, htake]
